import Mathlib

/-!
Verification of the kitchen-companion recipe/shopping-list core.

Shallow embedding of the Python sources under `src/services/`
(`converter.py`, `combiner.py`, `categories.py`, `pantry.py`, `parser.py`).

Conventions of the embedding:
* Python floats are modelled as exact rationals (`ℚ`); `round(x, n)` is
  modelled as round-half-to-even (`pyRound0`, `pyRound2`), Python's rule.
* Python strings are modelled as `String`; since the builtin
  `String.toLower`, `String.trim`, … do not reduce in the kernel, the
  file re-implements lower/strip/split on the underlying `List Char`.
* Python dicts keyed by the grouping key are modelled by first-appearance
  key order (`firstKeys`) plus per-key member lists, which is exactly the
  insertion-order semantics of a `defaultdict` loop.
* Externally configured rule sets (store zones, pantry patterns) are
  passed as explicit parameters, mirroring "loaded configuration".
-/

/-! ### Character and string helpers (Python `lower`, `strip`, `in`, …) -/

/-- Python `str.lower()` (ASCII case folding, as `Char.toLower`). -/
def lowerStr (s : String) : String := String.mk (s.data.map Char.toLower)

/-- Strip whitespace from both ends of a character list. -/
def trimChars (l : List Char) : List Char :=
  ((l.dropWhile Char.isWhitespace).reverse.dropWhile Char.isWhitespace).reverse

/-- Python `str.strip()`. -/
def trimStr (s : String) : String := String.mk (trimChars s.data)

/-- Is `pre` a leading segment of `l`? (helper for substring search). -/
def lPre : List Char → List Char → Bool
  | [], _ => true
  | _ :: _, [] => false
  | a :: as, b :: bs => a == b && lPre as bs

/-- Python `needle in hay` on strings: contiguous substring occurrence. -/
def lSub (needle : List Char) : List Char → Bool
  | [] => lPre needle []
  | hay@(_ :: t) => lPre needle hay || lSub needle t

/-- Value of a digit string (Python `int` on a run of digits). -/
def digitsToNat (l : List Char) : Nat :=
  l.foldl (fun acc c => acc * 10 + (c.toNat - '0'.toNat)) 0

/-! ### Rounding (Python `round`, half-to-even) -/

/-- Python `round(q, 0)`: round half to even. -/
def pyRound0 (q : ℚ) : ℚ :=
  let f : ℤ := ⌊q⌋
  if q - (f : ℚ) < 1/2 then (f : ℚ)
  else if 1/2 < q - (f : ℚ) then ((f : ℚ) + 1)
  else if f % 2 = 0 then (f : ℚ) else ((f : ℚ) + 1)

/-- Python `round(q, 2)`: round half to even at two decimals. -/
def pyRound2 (q : ℚ) : ℚ := pyRound0 (q * 100) / 100

theorem pyRound0_down {q : ℚ} {n : ℤ} (h1 : (n : ℚ) ≤ q) (h2 : q < (n : ℚ) + 1)
    (h3 : q - (n : ℚ) < 1/2) : pyRound0 q = (n : ℚ) := by
  have hf : ⌊q⌋ = n := by
    rw [Int.floor_eq_iff]
    exact ⟨h1, h2⟩
  unfold pyRound0
  simp only [hf]
  rw [if_pos h3]

theorem pyRound0_up {q : ℚ} {n : ℤ} (h1 : (n : ℚ) ≤ q) (h2 : q < (n : ℚ) + 1)
    (h3 : 1/2 < q - (n : ℚ)) : pyRound0 q = (n : ℚ) + 1 := by
  have hf : ⌊q⌋ = n := by
    rw [Int.floor_eq_iff]
    exact ⟨h1, h2⟩
  unfold pyRound0
  simp only [hf]
  rw [if_neg (by linarith), if_pos h3]

/-! ### Display of numbers (Python `str(float)` restricted to exact decimals) -/

/-- Left-pad a digit string with zeros to width `k`. -/
def padZeros (s : String) (k : Nat) : String :=
  String.mk (List.replicate (k - s.length) '0') ++ s

/-- Smallest number of decimal digits (1–30) rendering `q` exactly. -/
def decExp (q : ℚ) : Option Nat :=
  (List.range 30).findSome? fun k =>
    if (q * 10 ^ (k + 1)).den = 1 then some (k + 1) else none

/-- Python `str(float)` for the non-integer quantities that arise in this
program (all exact short decimals); other rationals fall back to a
fraction rendering, which no modelled code path reaches. -/
def pyFloatStr (q : ℚ) : String :=
  match decExp q with
  | some k =>
    let scaled : ℤ := (q * 10 ^ k).num
    let a := scaled.natAbs
    (if scaled < 0 then "-" else "")
      ++ toString (a / 10 ^ k) ++ "." ++ padZeros (toString (a % 10 ^ k)) k
  | none => toString q.num ++ "/" ++ toString q.den

/-! ### `converter.py` -/

/-- `WEIGHT_TO_GRAMS` from `converter.py`. -/
def WEIGHT_TO_GRAMS : List (String × ℚ) :=
  [("oz", 28.3495), ("lb", 453.592), ("g", 1.0), ("kg", 1000.0)]

/-- `VOLUME_TO_ML` from `converter.py`. -/
def VOLUME_TO_ML : List (String × ℚ) :=
  [("cup", 236.588), ("tbsp", 14.787), ("tsp", 4.929), ("fl oz", 29.574),
   ("ml", 1.0), ("l", 1000.0)]

/-- `NON_CONVERTIBLE` from `converter.py`. -/
def NON_CONVERTIBLE : List String :=
  ["clove", "bunch", "pinch", "to taste", "can", "package"]

/-- `WEIGHT_THRESHOLD` from `converter.py`. -/
def WEIGHT_THRESHOLD : ℚ := 1000

/-- `VOLUME_THRESHOLD` from `converter.py`. -/
def VOLUME_THRESHOLD : ℚ := 1000

/-- `unit_lower = unit.lower().strip()` in `convert_to_metric`. -/
def unitLower (u : String) : String := trimStr (lowerStr u)

/-- Body of `convert_to_metric` once both arguments are present. -/
def convertCore (q : ℚ) (u : String) : Option ℚ × Option String :=
  if unitLower u ∈ NON_CONVERTIBLE then (some q, some u)
  else if unitLower u ∈ (["g", "kg", "ml", "l"] : List String) then
    (some q, some (unitLower u))
  else
    match List.lookup (unitLower u) WEIGHT_TO_GRAMS with
    | some f =>
      if WEIGHT_THRESHOLD ≤ q * f then (some (pyRound2 (q * f / 1000)), some "kg")
      else (some (pyRound0 (q * f)), some "g")
    | none =>
      match List.lookup (unitLower u) VOLUME_TO_ML with
      | some f =>
        if VOLUME_THRESHOLD ≤ q * f then (some (pyRound2 (q * f / 1000)), some "l")
        else (some (pyRound0 (q * f)), some "ml")
      | none => (some q, some u)

/-- `convert_to_metric` from `converter.py`. -/
def convert_to_metric (quantity : Option ℚ) (unit : Option String) :
    Option ℚ × Option String :=
  match quantity, unit with
  | none, u => (none, u)
  | some q, none => (some q, none)
  | some q, some u => convertCore q u

/-- `format_quantity` from `converter.py`. -/
def format_quantity (quantity : Option ℚ) (unit : Option String) : String :=
  match quantity, unit with
  | none, none => ""
  | none, some u => u
  | some q, none => if q.den = 1 then toString q.num else pyFloatStr q
  | some q, some u =>
    (if q.den = 1 then toString q.num else pyFloatStr q) ++ u

/-- An already-lowercased metric unit literal converts to itself. -/
theorem convert_metric_lit (q : ℚ) (u : String)
    (hl : unitLower u = u)
    (hm : u ∈ (["g", "kg", "ml", "l"] : List String))
    (hn : u ∉ NON_CONVERTIBLE) :
    convert_to_metric (some q) (some u) = (some q, some u) := by
  show convertCore q u = (some q, some u)
  unfold convertCore
  rw [hl, if_neg hn, if_pos hm]

/-- C8: `convert_to_metric` is idempotent on its own outputs. -/
theorem convert_to_metric_idem (quantity : Option ℚ) (unit : Option String) :
    convert_to_metric (convert_to_metric quantity unit).1
        (convert_to_metric quantity unit).2
      = convert_to_metric quantity unit := by
  match quantity, unit with
  | none, u => rfl
  | some q, none => rfl
  | some q, some u =>
    show convert_to_metric (convertCore q u).1 (convertCore q u).2 = convertCore q u
    by_cases hn : unitLower u ∈ NON_CONVERTIBLE
    · have h : convertCore q u = (some q, some u) := by
        unfold convertCore
        rw [if_pos hn]
      rw [h]
      exact h
    · by_cases hm : unitLower u ∈ (["g", "kg", "ml", "l"] : List String)
      · have h : convertCore q u = (some q, some (unitLower u)) := by
          unfold convertCore
          rw [if_neg hn, if_pos hm]
        rw [h]
        simp only [List.mem_cons, List.not_mem_nil, or_false] at hm
        rcases hm with h4 | h4 | h4 | h4
        · rw [h4]; exact convert_metric_lit q "g" (by decide) (by decide) (by decide)
        · rw [h4]; exact convert_metric_lit q "kg" (by decide) (by decide) (by decide)
        · rw [h4]; exact convert_metric_lit q "ml" (by decide) (by decide) (by decide)
        · rw [h4]; exact convert_metric_lit q "l" (by decide) (by decide) (by decide)
      · match hw : List.lookup (unitLower u) WEIGHT_TO_GRAMS with
        | some f =>
          have h : convertCore q u
              = (if WEIGHT_THRESHOLD ≤ q * f then (some (pyRound2 (q * f / 1000)), some "kg")
                 else (some (pyRound0 (q * f)), some "g")) := by
            unfold convertCore
            rw [if_neg hn, if_neg hm, hw]
          rw [h]
          by_cases ht : WEIGHT_THRESHOLD ≤ q * f
          · rw [if_pos ht]
            exact convert_metric_lit _ "kg" (by decide) (by decide) (by decide)
          · rw [if_neg ht]
            exact convert_metric_lit _ "g" (by decide) (by decide) (by decide)
        | none =>
          match hv : List.lookup (unitLower u) VOLUME_TO_ML with
          | some f =>
            have h : convertCore q u
                = (if VOLUME_THRESHOLD ≤ q * f then (some (pyRound2 (q * f / 1000)), some "l")
                   else (some (pyRound0 (q * f)), some "ml")) := by
              unfold convertCore
              rw [if_neg hn, if_neg hm, hw, hv]
            rw [h]
            by_cases ht : VOLUME_THRESHOLD ≤ q * f
            · rw [if_pos ht]
              exact convert_metric_lit _ "l" (by decide) (by decide) (by decide)
            · rw [if_neg ht]
              exact convert_metric_lit _ "ml" (by decide) (by decide) (by decide)
          | none =>
            have h : convertCore q u = (some q, some u) := by
              unfold convertCore
              rw [if_neg hn, if_neg hm, hw, hv]
            rw [h]
            exact h

/-- Evaluation of `convert_to_metric` on the unit `"oz"`. -/
theorem convertCore_oz (q : ℚ) :
    convert_to_metric (some q) (some "oz")
      = if (1000 : ℚ) ≤ q * 28.3495 then (some (pyRound2 (q * 28.3495 / 1000)), some "kg")
        else (some (pyRound0 (q * 28.3495)), some "g") := by
  show convertCore q "oz" = _
  unfold convertCore
  rw [if_neg (by decide), if_neg (by decide),
    show List.lookup (unitLower "oz") WEIGHT_TO_GRAMS = some (28.3495 : ℚ) from rfl]
  rfl

/-- Evaluation of `convert_to_metric` on the unit `"lb"`. -/
theorem convertCore_lb (q : ℚ) :
    convert_to_metric (some q) (some "lb")
      = if (1000 : ℚ) ≤ q * 453.592 then (some (pyRound2 (q * 453.592 / 1000)), some "kg")
        else (some (pyRound0 (q * 453.592)), some "g") := by
  show convertCore q "lb" = _
  unfold convertCore
  rw [if_neg (by decide), if_neg (by decide),
    show List.lookup (unitLower "lb") WEIGHT_TO_GRAMS = some (453.592 : ℚ) from rfl]
  rfl

/-- Evaluation of `convert_to_metric` on the unit `"cup"`. -/
theorem convertCore_cup (q : ℚ) :
    convert_to_metric (some q) (some "cup")
      = if (1000 : ℚ) ≤ q * 236.588 then (some (pyRound2 (q * 236.588 / 1000)), some "l")
        else (some (pyRound0 (q * 236.588)), some "ml") := by
  show convertCore q "cup" = _
  unfold convertCore
  rw [if_neg (by decide), if_neg (by decide),
    show List.lookup (unitLower "cup") WEIGHT_TO_GRAMS = none from rfl,
    show List.lookup (unitLower "cup") VOLUME_TO_ML = some (236.588 : ℚ) from rfl]
  rfl

/-- C3 counterexample: an input already expressed in grams is passed through
unchanged even at 1000, so `convert_to_metric 1000 "g"` is not `(1.0, "kg")`. -/
theorem convert_g1000_not_kg :
    convert_to_metric (some 1000) (some "g") ≠ (some 1, some "kg") := by
  decide

/-- C3 (amended): `convert_to_metric (999, "g") = (999, "g")` and
`convert_to_metric (1000, "g") = (1000, "g")` — metric inputs pass through at
any magnitude; the inclusive-at-1000-grams threshold governs conversions from
the non-metric weight units, e.g. a pound quantity equal to exactly 1000 g
re-expresses as `(1.0, "kg")`. -/
theorem convert_gram_boundary :
    convert_to_metric (some 999) (some "g") = (some 999, some "g")
      ∧ convert_to_metric (some 1000) (some "g") = (some 1000, some "g")
      ∧ convert_to_metric (some (125000/56699)) (some "lb") = (some 1, some "kg") := by
  refine ⟨by decide, by decide, ?_⟩
  rw [convertCore_lb, if_pos (by norm_num)]
  have h1 : (125000/56699 : ℚ) * 453.592 / 1000 = 1 := by norm_num
  have h2 : pyRound2 1 = 1 := by
    unfold pyRound2
    rw [show ((1 : ℚ) * 100) = 100 by norm_num]
    rw [show ((100 : ℚ)) = ((100 : ℤ) : ℚ) by norm_num]
    rw [@pyRound0_down ((100 : ℤ) : ℚ) 100 (by norm_num) (by norm_num) (by norm_num)]
    norm_num
  rw [h1, h2]

/-! ### Name normalisation (`combiner.py`) -/

/-- Does `l` end with `suf`? (character-list version of `str.endswith`). -/
def endsWithChars (l suf : List Char) : Bool := lPre suf.reverse l.reverse

/-- Modelled from the spec: the third-party `inflect` engine's
`singular_noun`, called by `singularize` in `combiner.py` but not part of
this repository. Per the spec it applies "a generic plural-to-singular
transformation (strip a trailing 's' class ending) when a confident
singular form exists, else leave the word unchanged": here a final "s"
not preceded by another "s" is stripped, other words are left alone. -/
def singularNoun (w : String) : Option String :=
  if endsWithChars w.data ['s'] && !endsWithChars w.data ['s', 's'] then
    some (String.mk (w.data.take (w.data.length - 1)))
  else none

/-- `singularize` from `combiner.py`: explicit "ies" → "y" rule, then the
inflect engine, else the word unchanged. -/
def singularize (word : String) : String :=
  if endsWithChars (lowerStr word).data ['i', 'e', 's'] then
    String.mk (word.data.take (word.data.length - 3) ++ ['y'])
  else
    match singularNoun word with
    | some s => s
    | none => word

/-- Split a character list at whitespace (each separator starts a new chunk). -/
def wsSplitChars : List Char → List (List Char)
  | [] => [[]]
  | c :: rest =>
    if c.isWhitespace then [] :: wsSplitChars rest
    else
      match wsSplitChars rest with
      | [] => [[c]]
      | h :: t => (c :: h) :: t

/-- Python `str.split()` (whitespace-delimited, empty chunks dropped). -/
def pySplit (s : String) : List String :=
  ((wsSplitChars s.data).filter fun w => !w.isEmpty).map String.mk

/-- Python `" ".join(words)`. -/
def joinSpace : List String → String
  | [] => ""
  | [w] => w
  | w :: ws => w ++ " " ++ joinSpace ws

/-- Apply `f` to the last element of a list, if any. -/
def mapLast (f : String → String) : List String → List String
  | [] => []
  | [w] => [f w]
  | w :: ws => w :: mapLast f ws

/-- `normalize_ingredient_name` from `combiner.py`: lowercase, strip,
split into words, singularize the last word, join with single spaces. -/
def normalize_ingredient_name (name : String) : String :=
  joinSpace (mapLast singularize (pySplit (trimStr (lowerStr name))))

/-! ### `categories.py` (store zones, externally configured) -/

/-- The configured zone rules: ordered `(zone_name, patterns)` pairs, as
loaded by `_load_zones`; the embedding passes them as a parameter. -/
abbrev Zones := List (String × List String)

/-- `get_category` from `categories.py`: first zone one of whose patterns
is a substring of the lowercased name; `"unzoned"` when none matches. -/
def get_category (zones : Zones) (ingredient_name : String) : String :=
  match zones.find? (fun zp => zp.2.any fun pat =>
      lSub pat.data (lowerStr ingredient_name).data) with
  | some zp => zp.1
  | none => "unzoned"

/-- `get_category_order` from `categories.py`: index of the zone in the
configured order, or the number of zones when absent. -/
def get_category_order (zones : Zones) (zone : String) : Nat :=
  zones.findIdx fun zp => zp.1 == zone

/-- One combined-ingredient dict produced by `combine_ingredients`. -/
structure CombinedIng where
  name : String
  quantity : Option ℚ
  unit : Option String
  display : String
  category : String
deriving DecidableEq

/-- Code-point lexicographic strict order on character lists (Python `<`
on strings). -/
def charsLt : List Char → List Char → Bool
  | [], [] => false
  | [], _ :: _ => true
  | _ :: _, [] => false
  | a :: as, b :: bs => if a < b then true else if b < a then false else charsLt as bs

/-- Strict comparison of the Python sort keys
`(get_category_order(zone), name.lower())` used by `sort_by_category`. -/
def keyLt (zones : Zones) (a b : CombinedIng) : Bool :=
  let oa := get_category_order zones a.category
  let ob := get_category_order zones b.category
  decide (oa < ob) || (oa == ob && charsLt (lowerStr a.name).data (lowerStr b.name).data)

/-- Insert after every element not strictly greater; folding this over the
input is a stable sort. -/
def orderedInsert {α : Type} (lt : α → α → Bool) (x : α) : List α → List α
  | [] => [x]
  | y :: ys => if lt x y then x :: y :: ys else y :: orderedInsert lt x ys

/-- Stable insertion sort (model of Python `sorted`). -/
def stableSort {α : Type} (lt : α → α → Bool) (l : List α) : List α :=
  l.foldl (fun acc x => orderedInsert lt x acc) []

/-- `sort_by_category` from `categories.py`: stable sort by
`(zone order, lowercased name)`. -/
def sort_by_category (zones : Zones) (items : List CombinedIng) : List CombinedIng :=
  stableSort (keyLt zones) items

/-! ### `combine_ingredients` (`combiner.py`) -/

/-- One input ingredient dict for `combine_ingredients`. -/
structure IngLine where
  recipe_id : Nat
  quantity : Option ℚ
  unit : Option String
  name : String
deriving DecidableEq

/-- The per-line record appended to its group by `combine_ingredients`. -/
structure GItem where
  quantity : Option ℚ
  unit : Option String
  name : String
  norm_name : String
deriving DecidableEq

/-- Loop body of `combine_ingredients` before grouping: look up the
recipe's multiplier (default 1.0), scale, convert to metric, normalize. -/
def processLine (recipe_multipliers : List (Nat × ℚ)) (ing : IngLine) : GItem :=
  let multiplier := (List.lookup ing.recipe_id recipe_multipliers).getD 1
  let conv := convert_to_metric (ing.quantity.map (· * multiplier)) ing.unit
  ⟨conv.1, conv.2, ing.name, normalize_ingredient_name ing.name⟩

/-- The grouping key `(norm_name, unit)` of a processed line. -/
def itemKey (g : GItem) : String × Option String := (g.norm_name, g.unit)

/-- Fuelled worker for `firstKeys` (the fuel keeps the recursion
structural, so that the kernel can evaluate it). -/
def firstKeysAux {α : Type} [DecidableEq α] : Nat → List α → List α
  | _, [] => []
  | 0, _ :: _ => []
  | fuel + 1, k :: ks => k :: firstKeysAux fuel (ks.filter fun x => decide (x ≠ k))

/-- First-appearance order of the distinct elements of a list — the key
iteration order of a Python dict built by insertion. -/
def firstKeys {α : Type} [DecidableEq α] (l : List α) : List α :=
  firstKeysAux l.length l

/-- The member list `grouped[k]` of one group. -/
def groupMembers (recipe_multipliers : List (Nat × ℚ)) (ingredients : List IngLine)
    (k : String × Option String) : List GItem :=
  (ingredients.map (processLine recipe_multipliers)).filter fun it =>
    decide (itemKey it = k)

/-- The keys of `grouped` in insertion order. -/
def groupKeys (recipe_multipliers : List (Nat × ℚ)) (ingredients : List IngLine) :
    List (String × Option String) :=
  firstKeys ((ingredients.map (processLine recipe_multipliers)).map itemKey)

/-- One step of the `total_quantity` accumulation: `None` quantities are
skipped, the first present quantity turns the total from `None` into `0`. -/
def addQuantity (total q : Option ℚ) : Option ℚ :=
  match q with
  | none => total
  | some x => some (total.getD 0 + x)

/-- The summed quantity of a group (`total_quantity` after the loop). -/
def totalQuantity (items : List GItem) : Option ℚ :=
  items.foldl (fun t it => addQuantity t it.quantity) none

/-- Build the output dict of one group: first occurrence's name as display
name, summed quantity, the key's unit, rendered display, zone. -/
def mkCombined (zones : Zones) (k : String × Option String) (items : List GItem) :
    CombinedIng :=
  let total := totalQuantity items
  let dname := ((items.head?).map GItem.name).getD ""
  let qstr := format_quantity total k.2
  ⟨dname, total, k.2, if qstr = "" then dname else dname ++ " " ++ qstr,
    get_category zones dname⟩

/-- `combine_ingredients` from `combiner.py` (zone configuration passed
explicitly). -/
def combine_ingredients (zones : Zones) (ingredients : List IngLine)
    (recipe_multipliers : List (Nat × ℚ)) : List CombinedIng :=
  sort_by_category zones
    ((groupKeys recipe_multipliers ingredients).map fun k =>
      mkCombined zones k (groupMembers recipe_multipliers ingredients k))

/-! ### Structural lemmas about grouping, totals and sorting -/

theorem mem_firstKeysAux {α : Type} [DecidableEq α] :
    ∀ (fuel : Nat) (l : List α), l.length ≤ fuel → ∀ x, (x ∈ firstKeysAux fuel l ↔ x ∈ l) := by
  intro fuel
  induction fuel with
  | zero =>
    intro l hl x
    rw [List.length_eq_zero.mp (Nat.le_zero.mp hl)]
    exact Iff.rfl
  | succ f ih =>
    intro l hl x
    match l with
    | [] => rfl
    | k :: ks =>
      have hlen : (ks.filter fun y => decide (y ≠ k)).length ≤ f :=
        le_trans (List.length_filter_le _ _) (Nat.le_of_succ_le_succ hl)
      show x ∈ k :: firstKeysAux f (ks.filter fun y => decide (y ≠ k)) ↔ x ∈ k :: ks
      simp only [List.mem_cons, ih _ hlen, List.mem_filter, decide_eq_true_eq]
      by_cases hxk : x = k
      · simp [hxk]
      · simp [hxk]

theorem mem_firstKeys {α : Type} [DecidableEq α] (l : List α) (x : α) :
    x ∈ firstKeys l ↔ x ∈ l :=
  mem_firstKeysAux l.length l (le_refl _) x

theorem firstKeysAux_nodup {α : Type} [DecidableEq α] :
    ∀ (fuel : Nat) (l : List α), l.length ≤ fuel → (firstKeysAux fuel l).Nodup := by
  intro fuel
  induction fuel with
  | zero =>
    intro l hl
    rw [List.length_eq_zero.mp (Nat.le_zero.mp hl)]
    exact List.nodup_nil
  | succ f ih =>
    intro l hl
    match l with
    | [] => exact List.nodup_nil
    | k :: ks =>
      have hlen : (ks.filter fun y => decide (y ≠ k)).length ≤ f :=
        le_trans (List.length_filter_le _ _) (Nat.le_of_succ_le_succ hl)
      show (k :: firstKeysAux f (ks.filter fun y => decide (y ≠ k))).Nodup
      refine List.nodup_cons.mpr ⟨?_, ih _ hlen⟩
      intro hk
      have := (mem_firstKeysAux f _ hlen k).mp hk
      have := (List.mem_filter.mp this).2
      simp at this

theorem firstKeys_nodup {α : Type} [DecidableEq α] (l : List α) :
    (firstKeys l).Nodup :=
  firstKeysAux_nodup l.length l (le_refl _)

theorem addQuantity_none (t : Option ℚ) : addQuantity t none = t := rfl

theorem addQuantity_some (t : Option ℚ) (x : ℚ) :
    addQuantity t (some x) = some (t.getD 0 + x) := rfl

theorem totalQuantity_from_some (items : List GItem) (a : ℚ) :
    items.foldl (fun t it => addQuantity t it.quantity) (some a)
      = some (a + (items.filterMap GItem.quantity).sum) := by
  induction items generalizing a with
  | nil => simp
  | cons it rest ih =>
    match hq : it.quantity with
    | none =>
      simp only [List.foldl_cons, List.filterMap_cons, hq, addQuantity_none, ih]
    | some x =>
      simp only [List.foldl_cons, List.filterMap_cons, hq, addQuantity_some, Option.getD_some,
        ih, List.sum_cons]
      ring_nf

/-- The `total_quantity` loop computes: `None` when no member has a
quantity, otherwise the sum of the present quantities. -/
theorem totalQuantity_eq (items : List GItem) :
    totalQuantity items
      = if items.filterMap GItem.quantity = [] then none
        else some (items.filterMap GItem.quantity).sum := by
  induction items with
  | nil => simp [totalQuantity]
  | cons it rest ih =>
    match hq : it.quantity with
    | none =>
      simp only [totalQuantity, List.foldl_cons, addQuantity_none, hq, List.filterMap_cons]
      exact ih
    | some x =>
      simp only [totalQuantity, List.foldl_cons, addQuantity_some, hq, List.filterMap_cons,
        Option.getD_none, totalQuantity_from_some, List.sum_cons]
      rw [if_neg (by simp)]
      ring_nf

theorem orderedInsert_perm {α : Type} (lt : α → α → Bool) (x : α) (l : List α) :
    (orderedInsert lt x l).Perm (x :: l) := by
  induction l with
  | nil => exact List.Perm.refl _
  | cons y ys ih =>
    by_cases h : lt x y
    · rw [orderedInsert, if_pos h]
    · rw [orderedInsert, if_neg h]
      exact (ih.cons y).trans (List.Perm.swap x y ys)

theorem stableSort_fold_perm {α : Type} (lt : α → α → Bool) (l acc : List α) :
    (l.foldl (fun a x => orderedInsert lt x a) acc).Perm (l ++ acc) := by
  induction l generalizing acc with
  | nil => simp
  | cons x xs ih =>
    rw [List.foldl_cons, List.cons_append]
    refine (ih _).trans ?_
    refine (List.Perm.append_left xs (orderedInsert_perm lt x acc)).trans ?_
    exact List.perm_middle

/-- The stable sort permutes its input. -/
theorem stableSort_perm {α : Type} (lt : α → α → Bool) (l : List α) :
    (stableSort lt l).Perm l := by
  have := stableSort_fold_perm lt l []
  simpa [stableSort] using this

/-! ### Concrete conversion evaluations used by the claims -/

theorem pyRound0_226796 : pyRound0 (226796/1000 : ℚ) = 227 := by
  have h := @pyRound0_up (226796/1000 : ℚ) 226 (by norm_num) (by norm_num) (by norm_num)
  rw [h]
  norm_num

theorem processLine_oz8 :
    processLine [] ⟨1, some 8, some "oz", "beef"⟩ = ⟨some 227, some "g", "beef", "beef"⟩ := by
  have h1 : ((⟨1, some 8, some "oz", "beef"⟩ : IngLine).quantity.map
      (· * (List.lookup (⟨1, some 8, some "oz", "beef"⟩ : IngLine).recipe_id
        ([] : List (Nat × ℚ))).getD 1)) = some 8 := by
    simp
  simp only [processLine]
  rw [h1, convertCore_oz 8, if_neg (by norm_num),
    show (8 : ℚ) * 28.3495 = 226796/1000 from by norm_num, pyRound0_226796]
  decide

theorem processLine_lbhalf :
    processLine [] ⟨2, some (1/2), some "lb", "beef"⟩ = ⟨some 227, some "g", "beef", "beef"⟩ := by
  have h1 : ((⟨2, some (1/2), some "lb", "beef"⟩ : IngLine).quantity.map
      (· * (List.lookup (⟨2, some (1/2), some "lb", "beef"⟩ : IngLine).recipe_id
        ([] : List (Nat × ℚ))).getD 1)) = some (1/2) := by
    simp
  simp only [processLine]
  rw [h1, convertCore_lb (1/2), if_neg (by norm_num),
    show (1/2 : ℚ) * 453.592 = 226796/1000 from by norm_num, pyRound0_226796]
  decide

theorem combine_ozlb_eval :
    combine_ingredients []
        [⟨1, some 8, some "oz", "beef"⟩, ⟨2, some (1/2), some "lb", "beef"⟩] []
      = [⟨"beef", some 454, some "g", "beef 454g", "unzoned"⟩] := by
  have hmap : ([⟨1, some 8, some "oz", "beef"⟩,
      ⟨2, some (1/2), some "lb", "beef"⟩] : List IngLine).map (processLine [])
      = [⟨some 227, some "g", "beef", "beef"⟩, ⟨some 227, some "g", "beef", "beef"⟩] := by
    rw [List.map_cons, List.map_cons, List.map_nil, processLine_oz8, processLine_lbhalf]
  have htot : totalQuantity
      [⟨some 227, some "g", "beef", "beef"⟩, ⟨some 227, some "g", "beef", "beef"⟩]
      = some 454 := by
    rw [totalQuantity_eq, if_neg (by decide),
      show List.filterMap GItem.quantity
        [⟨some 227, some "g", "beef", "beef"⟩, ⟨some 227, some "g", "beef", "beef"⟩]
        = [227, 227] from by decide]
    norm_num
  have hgrp : mkCombined [] ("beef", some "g")
      [⟨some 227, some "g", "beef", "beef"⟩, ⟨some 227, some "g", "beef", "beef"⟩]
      = ⟨"beef", some 454, some "g", "beef 454g", "unzoned"⟩ := by
    simp only [mkCombined, htot]
    decide
  unfold combine_ingredients groupKeys groupMembers
  rw [hmap]
  rw [show ([⟨some 227, some "g", "beef", "beef"⟩,
      ⟨some 227, some "g", "beef", "beef"⟩] : List GItem).map itemKey
      = [("beef", some "g"), ("beef", some "g")] from by decide]
  rw [show firstKeys [("beef", some "g"), ("beef", some "g")]
      = [("beef", some "g")] from by decide]
  rw [List.map_cons, List.map_nil]
  rw [show ([⟨some 227, some "g", "beef", "beef"⟩,
      ⟨some 227, some "g", "beef", "beef"⟩] : List GItem).filter
        (fun it => decide (itemKey it = ("beef", some "g")))
      = [⟨some 227, some "g", "beef", "beef"⟩, ⟨some 227, some "g", "beef", "beef"⟩]
      from by decide]
  rw [hgrp]
  rfl

/-- C1: two input lines land in the same group of `combine_ingredients` if
and only if their grouping keys — normalized name together with the unit
produced by `convert_to_metric` on the scaled quantity — are equal; in
particular `8 oz` and `0.5 lb` of the same ingredient (both 227 g, below
the kilogram threshold) form a single group whose quantity is the sum
454 g. -/
theorem combine_same_group_iff (zones : Zones) (m : List (Nat × ℚ)) (l : List IngLine)
    (a b : GItem) (ha : a ∈ l.map (processLine m)) (hb : b ∈ l.map (processLine m)) :
    ((∃ k, k ∈ groupKeys m l ∧ a ∈ groupMembers m l k ∧ b ∈ groupMembers m l k)
        ↔ itemKey a = itemKey b)
      ∧ combine_ingredients []
          [⟨1, some 8, some "oz", "beef"⟩, ⟨2, some (1/2), some "lb", "beef"⟩] []
          = [⟨"beef", some 454, some "g", "beef 454g", "unzoned"⟩] := by
  refine ⟨⟨?_, ?_⟩, combine_ozlb_eval⟩
  · rintro ⟨k, _, hak, hbk⟩
    have h1 := (List.mem_filter.mp hak).2
    have h2 := (List.mem_filter.mp hbk).2
    rw [decide_eq_true_eq] at h1 h2
    rw [h1, h2]
  · intro h
    refine ⟨itemKey a, ?_, ?_, ?_⟩
    · rw [groupKeys, mem_firstKeys]
      exact List.mem_map_of_mem itemKey ha
    · exact List.mem_filter.mpr ⟨ha, by simp⟩
    · exact List.mem_filter.mpr ⟨hb, by simp [h.symm]⟩

/-- Witness for C1 at a concrete input. -/
theorem combine_same_group_iff_witness :
    ((∃ k, k ∈ groupKeys [] [⟨0, none, none, "egg"⟩]
        ∧ (⟨none, none, "egg", "egg"⟩ : GItem) ∈ groupMembers [] [⟨0, none, none, "egg"⟩] k
        ∧ (⟨none, none, "egg", "egg"⟩ : GItem) ∈ groupMembers [] [⟨0, none, none, "egg"⟩] k)
      ↔ itemKey ⟨none, none, "egg", "egg"⟩ = itemKey ⟨none, none, "egg", "egg"⟩)
      ∧ combine_ingredients []
          [⟨1, some 8, some "oz", "beef"⟩, ⟨2, some (1/2), some "lb", "beef"⟩] []
          = [⟨"beef", some 454, some "g", "beef 454g", "unzoned"⟩] :=
  combine_same_group_iff [] [] [⟨0, none, none, "egg"⟩]
    ⟨none, none, "egg", "egg"⟩ ⟨none, none, "egg", "egg"⟩ (by decide) (by decide)

/-- C9: each group's output quantity is the sum of exactly the present
(non-`None`) scaled-and-converted quantities of its member lines, and a
group none of whose members carries a quantity gets `None`, never 0. -/
theorem combine_group_quantity (zones : Zones) (m : List (Nat × ℚ)) (l : List IngLine) :
    ∀ g ∈ combine_ingredients zones l m, ∃ k, k ∈ groupKeys m l ∧
      g = mkCombined zones k (groupMembers m l k) ∧
      g.quantity
        = (if (groupMembers m l k).filterMap GItem.quantity = [] then none
           else some ((groupMembers m l k).filterMap GItem.quantity).sum) := by
  intro g hg
  have hg' : g ∈ (groupKeys m l).map fun k => mkCombined zones k (groupMembers m l k) :=
    (stableSort_perm _ _).mem_iff.mp hg
  obtain ⟨k, hk, rfl⟩ := List.mem_map.mp hg'
  refine ⟨k, hk, rfl, ?_⟩
  rw [show (mkCombined zones k (groupMembers m l k)).quantity
    = totalQuantity (groupMembers m l k) from rfl]
  exact totalQuantity_eq _

/-- Witness for C9 at a concrete input. -/
theorem combine_group_quantity_witness :
    ∃ k, k ∈ groupKeys [] [⟨0, none, none, "egg"⟩] ∧
      (⟨"egg", none, none, "egg", "unzoned"⟩ : CombinedIng)
        = mkCombined [] k (groupMembers [] [⟨0, none, none, "egg"⟩] k) ∧
      (⟨"egg", none, none, "egg", "unzoned"⟩ : CombinedIng).quantity
        = (if (groupMembers [] [⟨0, none, none, "egg"⟩] k).filterMap GItem.quantity = []
           then none
           else some ((groupMembers [] [⟨0, none, none, "egg"⟩] k).filterMap GItem.quantity).sum) :=
  combine_group_quantity [] [] [⟨0, none, none, "egg"⟩]
    ⟨"egg", none, none, "egg", "unzoned"⟩ (by decide)

theorem pyRound0_946352 : pyRound0 (946352/1000 : ℚ) = 946 := by
  have h := @pyRound0_down (946352/1000 : ℚ) 946 (by norm_num) (by norm_num) (by norm_num)
  rw [h]
  norm_num

theorem pyRound0_236588 : pyRound0 (236588/1000 : ℚ) = 237 := by
  have h := @pyRound0_up (236588/1000 : ℚ) 236 (by norm_num) (by norm_num) (by norm_num)
  rw [h]
  norm_num

theorem processLine_milkA :
    processLine [(1, 2), (2, 1)] ⟨1, some 2, some "cup", "milk"⟩
      = ⟨some 946, some "ml", "milk", "milk"⟩ := by
  have h1 : ((⟨1, some 2, some "cup", "milk"⟩ : IngLine).quantity.map
      (· * (List.lookup (⟨1, some 2, some "cup", "milk"⟩ : IngLine).recipe_id
        ([(1, 2), (2, 1)] : List (Nat × ℚ))).getD 1)) = some 4 := by
    rw [show (List.lookup (⟨1, some 2, some "cup", "milk"⟩ : IngLine).recipe_id
      ([(1, 2), (2, 1)] : List (Nat × ℚ))) = some 2 from rfl]
    simp
    norm_num
  simp only [processLine]
  rw [h1, convertCore_cup 4, if_neg (by norm_num),
    show (4 : ℚ) * 236.588 = 946352/1000 from by norm_num, pyRound0_946352]
  decide

theorem processLine_milkB :
    processLine [(1, 2), (2, 1)] ⟨2, some 1, some "cup", "milk"⟩
      = ⟨some 237, some "ml", "milk", "milk"⟩ := by
  have h1 : ((⟨2, some 1, some "cup", "milk"⟩ : IngLine).quantity.map
      (· * (List.lookup (⟨2, some 1, some "cup", "milk"⟩ : IngLine).recipe_id
        ([(1, 2), (2, 1)] : List (Nat × ℚ))).getD 1)) = some 1 := by
    rw [show (List.lookup (⟨2, some 1, some "cup", "milk"⟩ : IngLine).recipe_id
      ([(1, 2), (2, 1)] : List (Nat × ℚ))) = some 1 from rfl]
    simp
  simp only [processLine]
  rw [h1, convertCore_cup 1, if_neg (by norm_num),
    show (1 : ℚ) * 236.588 = 236588/1000 from by norm_num, pyRound0_236588]
  decide

/-- Evaluation of the two-recipe milk scenario: per-line conversion rounds
each line to whole millilitres (946 and 237) before summation, and the sum
is never re-expressed in litres. -/
theorem combine_milk_eval :
    combine_ingredients []
        [⟨1, some 2, some "cup", "milk"⟩, ⟨2, some 1, some "cup", "milk"⟩]
        [(1, 2), (2, 1)]
      = [⟨"milk", some 1183, some "ml", "milk 1183ml", "unzoned"⟩] := by
  have hmap : ([⟨1, some 2, some "cup", "milk"⟩,
      ⟨2, some 1, some "cup", "milk"⟩] : List IngLine).map (processLine [(1, 2), (2, 1)])
      = [⟨some 946, some "ml", "milk", "milk"⟩, ⟨some 237, some "ml", "milk", "milk"⟩] := by
    rw [List.map_cons, List.map_cons, List.map_nil, processLine_milkA, processLine_milkB]
  have htot : totalQuantity
      [⟨some 946, some "ml", "milk", "milk"⟩, ⟨some 237, some "ml", "milk", "milk"⟩]
      = some 1183 := by
    rw [totalQuantity_eq, if_neg (by decide),
      show List.filterMap GItem.quantity
        [⟨some 946, some "ml", "milk", "milk"⟩, ⟨some 237, some "ml", "milk", "milk"⟩]
        = [946, 237] from by decide]
    norm_num
  have hgrp : mkCombined [] ("milk", some "ml")
      [⟨some 946, some "ml", "milk", "milk"⟩, ⟨some 237, some "ml", "milk", "milk"⟩]
      = ⟨"milk", some 1183, some "ml", "milk 1183ml", "unzoned"⟩ := by
    simp only [mkCombined, htot]
    decide
  unfold combine_ingredients groupKeys groupMembers
  rw [hmap]
  rw [show ([⟨some 946, some "ml", "milk", "milk"⟩,
      ⟨some 237, some "ml", "milk", "milk"⟩] : List GItem).map itemKey
      = [("milk", some "ml"), ("milk", some "ml")] from by decide]
  rw [show firstKeys [("milk", some "ml"), ("milk", some "ml")]
      = [("milk", some "ml")] from by decide]
  rw [List.map_cons, List.map_nil]
  rw [show ([⟨some 946, some "ml", "milk", "milk"⟩,
      ⟨some 237, some "ml", "milk", "milk"⟩] : List GItem).filter
        (fun it => decide (itemKey it = ("milk", some "ml")))
      = [⟨some 946, some "ml", "milk", "milk"⟩, ⟨some 237, some "ml", "milk", "milk"⟩]
      from by decide]
  rw [hgrp]
  rfl

/-- C2 counterexample: with the code's per-line rounding and absence of
re-conversion after summation, the milk scenario does not produce the
quantity 1182.94 nor the display "milk 1.18l". -/
theorem combine_milk_not_claimed :
    (combine_ingredients []
        [⟨1, some 2, some "cup", "milk"⟩, ⟨2, some 1, some "cup", "milk"⟩]
        [(1, 2), (2, 1)]).map CombinedIng.display ≠ ["milk 1.18l"]
      ∧ (combine_ingredients []
          [⟨1, some 2, some "cup", "milk"⟩, ⟨2, some 1, some "cup", "milk"⟩]
          [(1, 2), (2, 1)]).map CombinedIng.quantity ≠ [some (1182.94 : ℚ)] := by
  rw [combine_milk_eval]
  constructor
  · decide
  · simp only [List.map_cons, List.map_nil, ne_eq, List.cons.injEq, and_true,
      Option.some.injEq]
    intro h
    rw [show ((1182.94 : ℚ)) = 118294/100 from by norm_num] at h
    have : ¬ ((1183 : ℚ) = 118294/100) := by norm_num
    exact this h

/-- C2 (amended): combining `{recipe 1: 2 cups milk at multiplier 2.0}`
with `{recipe 2: 1 cup milk at multiplier 1.0}` yields exactly one group;
each line is converted and rounded individually (946 ml and 237 ml), the
group's quantity is 1183 ml, and since the per-line conversions stayed
under the litre threshold the sum stays in millilitres, displayed as
"milk 1183ml". -/
theorem combine_milk_scenario :
    combine_ingredients []
        [⟨1, some 2, some "cup", "milk"⟩, ⟨2, some 1, some "cup", "milk"⟩]
        [(1, 2), (2, 1)]
      = [⟨"milk", some 1183, some "ml", "milk 1183ml", "unzoned"⟩] :=
  combine_milk_eval

theorem mkCombined_congr (zones : Zones) (k : String × Option String)
    {items₁ items₂ : List GItem} (hperm : items₁.Perm items₂)
    (hname : ((items₁.head?).map GItem.name).getD ""
      = ((items₂.head?).map GItem.name).getD "") :
    mkCombined zones k items₁ = mkCombined zones k items₂ := by
  have hfm : (items₁.filterMap GItem.quantity).Perm (items₂.filterMap GItem.quantity) :=
    hperm.filterMap _
  have htot : totalQuantity items₁ = totalQuantity items₂ := by
    rw [totalQuantity_eq, totalQuantity_eq]
    by_cases h : items₁.filterMap GItem.quantity = []
    · have h2 : items₂.filterMap GItem.quantity = [] := by
        rw [h] at hfm
        exact hfm.symm.eq_nil
      rw [h, h2]
    · have h2 : ¬ items₂.filterMap GItem.quantity = [] := by
        intro hc
        rw [hc] at hfm
        exact h hfm.eq_nil
      rw [if_neg h, if_neg h2, hfm.sum_eq]
  simp only [mkCombined, htot, hname]

/-- C4 (amended): if all input lines that share a grouping key carry the
identical original name spelling, then permuting the input lines yields an
output list that is a permutation of the original — the same multiset of
groups with the same names, quantities, units, displays and zones. (The
full claim fails: the first-seen display-name rule makes the output depend
on input order when spellings differ, and tied sort keys keep insertion
order.) -/
theorem combine_perm_of_uniform_names (zones : Zones) (m : List (Nat × ℚ))
    {l₁ l₂ : List IngLine} (hp : l₁.Perm l₂)
    (hn : ∀ a ∈ l₁, ∀ b ∈ l₁,
      itemKey (processLine m a) = itemKey (processLine m b) → a.name = b.name) :
    (combine_ingredients zones l₁ m).Perm (combine_ingredients zones l₂ m) := by
  have hitems : (l₁.map (processLine m)).Perm (l₂.map (processLine m)) := hp.map _
  have hkeys : (groupKeys m l₁).Perm (groupKeys m l₂) := by
    refine (List.perm_ext_iff_of_nodup (firstKeys_nodup _) (firstKeys_nodup _)).mpr ?_
    intro k
    show k ∈ firstKeys ((l₁.map (processLine m)).map itemKey)
      ↔ k ∈ firstKeys ((l₂.map (processLine m)).map itemKey)
    rw [mem_firstKeys, mem_firstKeys]
    exact (hitems.map itemKey).mem_iff
  have hmk : ∀ k ∈ groupKeys m l₁,
      mkCombined zones k (groupMembers m l₁ k)
        = mkCombined zones k (groupMembers m l₂ k) := by
    intro k hk
    have hmemperm : (groupMembers m l₁ k).Perm (groupMembers m l₂ k) :=
      hitems.filter _
    have hk1 : k ∈ (l₁.map (processLine m)).map itemKey := (mem_firstKeys _ _).mp hk
    obtain ⟨it, hit, hik⟩ := List.mem_map.mp hk1
    have hitmem : it ∈ groupMembers m l₁ k :=
      List.mem_filter.mpr ⟨hit, by simp [hik]⟩
    match hm1 : groupMembers m l₁ k with
    | [] =>
      rw [hm1] at hitmem
      simp at hitmem
    | h₁ :: t₁ =>
      match hm2 : groupMembers m l₂ k with
      | [] =>
        rw [hm1, hm2] at hmemperm
        have := hmemperm.eq_nil
        simp at this
      | h₂ :: t₂ =>
        have hh₁ : h₁ ∈ groupMembers m l₁ k := by
          rw [hm1]
          exact List.mem_cons_self _ _
        have hh₂ : h₂ ∈ groupMembers m l₂ k := by
          rw [hm2]
          exact List.mem_cons_self _ _
        have hh₁i : h₁ ∈ l₁.map (processLine m) := (List.mem_filter.mp hh₁).1
        have hh₂i : h₂ ∈ l₁.map (processLine m) :=
          hitems.mem_iff.mpr (List.mem_filter.mp hh₂).1
        have hk₁ : itemKey h₁ = k := by
          have := (List.mem_filter.mp hh₁).2
          simpa using this
        have hk₂ : itemKey h₂ = k := by
          have := (List.mem_filter.mp hh₂).2
          simpa using this
        obtain ⟨a₁, ha₁, he₁⟩ := List.mem_map.mp hh₁i
        obtain ⟨a₂, ha₂, he₂⟩ := List.mem_map.mp hh₂i
        have hnames : a₁.name = a₂.name := by
          refine hn a₁ ha₁ a₂ ha₂ ?_
          rw [he₁, he₂, hk₁, hk₂]
        have hname₁ : h₁.name = a₁.name := by
          rw [← he₁]
          rfl
        have hname₂ : h₂.name = a₂.name := by
          rw [← he₂]
          rfl
        rw [hm1, hm2] at hmemperm
        refine mkCombined_congr zones k hmemperm ?_
        simp only [List.head?_cons, Option.map_some', Option.getD_some]
        rw [hname₁, hname₂, hnames]
  have c₁ : (combine_ingredients zones l₁ m).Perm
      ((groupKeys m l₁).map fun k => mkCombined zones k (groupMembers m l₁ k)) :=
    stableSort_perm _ _
  have c₂ : (combine_ingredients zones l₂ m).Perm
      ((groupKeys m l₂).map fun k => mkCombined zones k (groupMembers m l₂ k)) :=
    stableSort_perm _ _
  have cmap : ((groupKeys m l₁).map fun k => mkCombined zones k (groupMembers m l₁ k)).Perm
      ((groupKeys m l₂).map fun k => mkCombined zones k (groupMembers m l₂ k)) := by
    rw [List.map_congr_left hmk]
    exact hkeys.map _
  exact c₁.trans (cmap.trans c₂.symm)

/-- Witness for C4 (amended) at a concrete input. -/
theorem combine_perm_of_uniform_names_witness :
    (combine_ingredients [] [⟨0, none, none, "milk"⟩, ⟨0, none, none, "egg"⟩] []).Perm
      (combine_ingredients [] [⟨0, none, none, "egg"⟩, ⟨0, none, none, "milk"⟩] []) :=
  combine_perm_of_uniform_names [] [] (by decide) (by decide)

/-- C4 counterexample: swapping two input lines that spell the same
ingredient differently ("Milk" vs "milk") changes the group's first-seen
display name, so the sorted output list changes with input order. -/
theorem combine_not_order_invariant :
    (([⟨0, none, none, "Milk"⟩, ⟨0, none, none, "milk"⟩] : List IngLine).Perm
        [⟨0, none, none, "milk"⟩, ⟨0, none, none, "Milk"⟩])
      ∧ combine_ingredients [] [⟨0, none, none, "Milk"⟩, ⟨0, none, none, "milk"⟩] []
        ≠ combine_ingredients [] [⟨0, none, none, "milk"⟩, ⟨0, none, none, "Milk"⟩] [] := by
  constructor
  · decide
  · decide

/-! ### `parser.py` — data model -/

/-- `ParsedIngredient` from `parser.py`. -/
structure ParsedIngredient where
  quantity : Option ℚ
  unit : Option String
  name : String
  raw_text : String
deriving DecidableEq

/-- `ParsedRecipe` from `parser.py` (`servings` is the non-negative integer
captured by `\d+`, defaulted to 4). -/
structure ParsedRecipe where
  name : String
  servings : Nat
  ingredients : List ParsedIngredient
  raw_content : String
  error : Option String
deriving DecidableEq

/-! ### `parser.py` — regex machinery

The regexes of `parser.py` are compiled by hand into deterministic
backtracking matchers over `List Char`; candidate lists are produced in
the exact priority order the Python `re` engine explores (alternation
order, greedy quantifiers backing off from the longest match). -/

/-- Case-insensitive literal match: `pat` (given lowercase) against the
head of `s`; returns the rest on success. -/
def matchCI : List Char → List Char → Option (List Char)
  | [], s => some s
  | _ :: _, [] => none
  | p :: ps, c :: cs => if c.toLower = p then matchCI ps cs else none

/-- Match of `##\s*Ingredients\s*\n` (case-insensitive) at the head of
`s`: the trailing `\s*\n` consumes the whitespace run up to its last
newline. Returns the capture start. -/
def ingHeaderAt (s : List Char) : Option (List Char) :=
  match matchCI "##".data s with
  | none => none
  | some r1 =>
    match matchCI "ingredients".data (r1.dropWhile Char.isWhitespace) with
    | none => none
    | some r3 =>
      let w2 := r3.takeWhile Char.isWhitespace
      let k := (w2.reverse.takeWhile fun c => decide (c ≠ '\n')).length
      if k < w2.length then some (r3.drop (w2.length - k)) else none

/-- The lazy capture `(.*?)(?=\n##|\Z)` (DOTALL): everything up to the
first `"\n##"` or the end. -/
def captureUntil : List Char → List Char
  | [] => []
  | c :: cs => if lPre "\n##".data (c :: cs) then [] else c :: captureUntil cs

/-- `INGREDIENTS_SECTION.search`: leftmost occurrence of the header,
returning the captured section text. -/
def findIngSectionChars : List Char → Option (List Char)
  | [] => none
  | s@(_ :: rest) =>
    match ingHeaderAt s with
    | some cap => some (captureUntil cap)
    | none => findIngSectionChars rest

/-- `^Servings:\s*(\d+)` (IGNORECASE) tried at one line start. -/
def servingsAt (s : List Char) : Option Nat :=
  match matchCI "servings:".data s with
  | none => none
  | some r =>
    let ds := (r.dropWhile Char.isWhitespace).takeWhile Char.isDigit
    if ds.isEmpty then none else some (digitsToNat ds)

/-- MULTILINE search of `SERVINGS_PATTERN`: scan all line starts left to
right. -/
def servingsSearch : List Char → Bool → Option Nat
  | [], _ => none
  | s@(c :: rest), atStart =>
    match (if atStart then servingsAt s else none) with
    | some n => some n
    | none => servingsSearch rest (c == '\n')

/-- `SERVINGS_PATTERN.search(content)` returning the captured integer. -/
def findServings (content : List Char) : Option Nat := servingsSearch content true

/-- `^#\s+(.+)$` (MULTILINE) tried at one line start (`\s+` may span
newlines; when the document ends inside it, the greedy run backs off to
leave one non-newline whitespace character for `.+`). -/
def titleAt (s : List Char) : Option (List Char) :=
  match s with
  | '#' :: r =>
    let w := r.takeWhile Char.isWhitespace
    let rest := r.drop w.length
    if w.isEmpty then none
    else if !rest.isEmpty then some (rest.takeWhile fun c => decide (c ≠ '\n'))
    else
      match (w.drop 1).reverse.find? (fun c => decide (c ≠ '\n')) with
      | some c => some [c]
      | none => none
  | _ => none

/-- MULTILINE search of `TITLE_PATTERN`. -/
def titleSearch : List Char → Bool → Option (List Char)
  | [], _ => none
  | s@(c :: rest), atStart =>
    match (if atStart then titleAt s else none) with
    | some cap => some cap
    | none => titleSearch rest (c == '\n')

/-- `TITLE_PATTERN.search(content)` returning the captured heading text. -/
def findTitle (content : List Char) : Option (List Char) := titleSearch content true

/-- `filename.rsplit(".", 1)[0]`. -/
def dropExt (l : List Char) : List Char :=
  let rt := l.reverse.takeWhile fun c => decide (c ≠ '.')
  if rt.length = l.length then l else l.take (l.length - rt.length - 1)

/-- `.replace("-", " ").replace("_", " ")`. -/
def sepToSpace (l : List Char) : List Char :=
  l.map fun c => if c = '-' ∨ c = '_' then ' ' else c

/-- Python `str.title()`: uppercase each letter that follows a non-letter,
lowercase the other letters. -/
def pyTitleCase (l : List Char) : List Char :=
  (l.foldl
    (fun (acc : List Char × Bool) c =>
      (acc.1 ++ [if c.isAlpha then (if acc.2 then c.toLower else c.toUpper) else c],
        c.isAlpha))
    ([], false)).1

/-- The fallback recipe name derived from the filename. -/
def filenameTitle (filename : String) : String :=
  String.mk (pyTitleCase (sepToSpace (dropExt filename.data)))

/-- The recipe name: first `# ` heading, else the prettified filename. -/
def recipeName (filename content : String) : String :=
  match findTitle content.data with
  | some cap => trimStr (String.mk cap)
  | none => filenameTitle filename

/-- The servings value: first `Servings: <digits>` match, default 4. -/
def recipeServings (content : String) : Nat := (findServings content.data).getD 4

/-! ### `parser.py` — the ingredient-line pattern -/

/-- `FRACTION_MAP` from `parser.py`. -/
def FRACTION_MAP : List (String × ℚ) :=
  [("1/4", 0.25), ("1/3", 0.333), ("1/2", 0.5), ("2/3", 0.667), ("3/4", 0.75)]

/-- Split a character list at `'/'` separators. -/
def slashSplit : List Char → List (List Char)
  | [] => [[]]
  | c :: rest =>
    if c = '/' then [] :: slashSplit rest
    else
      match slashSplit rest with
      | [] => [[c]]
      | h :: t => (c :: h) :: t

/-- Python `float()` on the strings this parser feeds it (digit runs with
an optional fractional part); anything else is a `ValueError` (`none`). -/
def floatOfChars (l : List Char) : Option ℚ :=
  let ip := l.takeWhile Char.isDigit
  let rest := l.drop ip.length
  match rest with
  | [] => if ip.isEmpty then none else some (digitsToNat ip)
  | '.' :: fp =>
    if ip.isEmpty ∨ fp.isEmpty ∨ ¬ (fp.all Char.isDigit) then none
    else some ((digitsToNat ip : ℚ) + (digitsToNat fp : ℚ) / 10 ^ fp.length)
  | _ => none

/-- `parse_fraction` from `parser.py`: table lookup, else numeric division
with every error (`ValueError`, `ZeroDivisionError`) collapsing to 0. -/
def parse_fraction (s : List Char) : ℚ :=
  match List.lookup (String.mk s) FRACTION_MAP with
  | some v => v
  | none =>
    match slashSplit s with
    | [n, d] =>
      match floatOfChars n, floatOfChars d with
      | some nv, some dv => if dv = 0 then 0 else nv / dv
      | _, _ => 0
    | _ => 0

/-- Value of a matched `\d+(?:\.\d+)?` group (Python `float`). -/
def pyFloat (s : List Char) : ℚ :=
  let ip := s.takeWhile Char.isDigit
  let rest := s.drop ip.length
  match rest with
  | '.' :: fp => (digitsToNat ip : ℚ) + (digitsToNat fp : ℚ) / 10 ^ fp.length
  | _ => (digitsToNat ip : ℚ)

/-- Which alternative of the quantity group of `QUANTITY_PATTERN` matched,
with its captured groups. -/
inductive QuantParts where
  | mixed (g0 g1 : List Char)
  | frac (g2 : List Char)
  | range (g3 g4 : List Char)
  | num (g5 : List Char)
  | noQuant
deriving DecidableEq

/-- Candidates for `\d+(?:\.\d+)?` at the head of `s`, in the regex
backtracking order (longest first, fractional part given up before
shortening the integer part). -/
def numCands (s : List Char) : List (List Char × List Char) :=
  let ds := s.takeWhile Char.isDigit
  let r := s.drop ds.length
  if ds.isEmpty then []
  else
    let withDec :=
      match r with
      | '.' :: r2 =>
        let es := r2.takeWhile Char.isDigit
        let r3 := r2.drop es.length
        (List.range es.length).map fun k =>
          (ds ++ '.' :: es.take (es.length - k), es.drop (es.length - k) ++ r3)
      | _ => []
    withDec ++ (List.range ds.length).map fun k =>
      (ds.take (ds.length - k), ds.drop (ds.length - k) ++ r)

/-- Candidates for the mixed-fraction alternative `(\d+)\s+(\d+/\d+)`:
only the final digit run can back off. -/
def mixedCands (s : List Char) : List ((List Char × List Char) × List Char) :=
  let d1 := s.takeWhile Char.isDigit
  let r1 := s.drop d1.length
  if d1.isEmpty then []
  else
    let w := r1.takeWhile Char.isWhitespace
    let r2 := r1.drop w.length
    if w.isEmpty then []
    else
      let n := r2.takeWhile Char.isDigit
      let r3 := r2.drop n.length
      if n.isEmpty then []
      else
        match r3 with
        | '/' :: r4 =>
          let d := r4.takeWhile Char.isDigit
          let r5 := r4.drop d.length
          (List.range d.length).map fun k =>
            ((d1, n ++ '/' :: d.take (d.length - k)), d.drop (d.length - k) ++ r5)
        | _ => []

/-- Candidates for the simple-fraction alternative `(\d+/\d+)`. -/
def fracCands (s : List Char) : List (List Char × List Char) :=
  let n := s.takeWhile Char.isDigit
  let r1 := s.drop n.length
  if n.isEmpty then []
  else
    match r1 with
    | '/' :: r2 =>
      let d := r2.takeWhile Char.isDigit
      let r3 := r2.drop d.length
      (List.range d.length).map fun k =>
        (n ++ '/' :: d.take (d.length - k), d.drop (d.length - k) ++ r3)
    | _ => []

/-- Candidates for the range alternative
`(\d+(?:\.\d+)?)\s*-\s*(\d+(?:\.\d+)?)`. -/
def rangeCands (s : List Char) : List ((List Char × List Char) × List Char) :=
  (numCands s).flatMap fun p =>
    match p.2.dropWhile Char.isWhitespace with
    | '-' :: r3 =>
      (numCands (r3.dropWhile Char.isWhitespace)).map fun q => ((p.1, q.1), q.2)
    | _ => []

/-- A literal unit token (case-insensitive). -/
def litTok (w : String) (v : List Char) : List (List Char × List Char) :=
  match matchCI w.data v with
  | some r => [(v.take (v.length - r.length), r)]
  | none => []

/-- A token with an optional plural `s?` (greedy: long form first). -/
def optSTok (w : String) (v : List Char) : List (List Char × List Char) :=
  litTok (w ++ "s") v ++ litTok w v

/-- The token `fl\s*oz`. -/
def flOzTok (v : List Char) : List (List Char × List Char) :=
  match matchCI "fl".data v with
  | none => []
  | some r =>
    match matchCI "oz".data (r.dropWhile Char.isWhitespace) with
    | some r3 => [(v.take (v.length - r3.length), r3)]
    | none => []

/-- The unit alternation of `QUANTITY_PATTERN`, in source order. -/
def unitTokenCands (v : List Char) : List (List Char × List Char) :=
  flOzTok v ++ litTok "oz" v ++ litTok "lb" v ++ optSTok "lb" v ++ optSTok "pound" v
    ++ litTok "g" v ++ litTok "kg" v ++ litTok "ml" v ++ litTok "l" v
    ++ optSTok "liter" v ++ optSTok "cup" v ++ litTok "tbsp" v ++ optSTok "tablespoon" v
    ++ litTok "tsp" v ++ optSTok "teaspoon" v ++ optSTok "clove" v ++ litTok "bunch" v
    ++ litTok "pinch" v ++ litTok "can" v ++ optSTok "can" v ++ litTok "package" v
    ++ litTok "pkg" v

/-- A unit token followed by the required `(?:\s|$)` terminator (the
captured group 6 includes the terminator character). -/
def unitCands (v : List Char) : List (List Char × List Char) :=
  (unitTokenCands v).filterMap fun p =>
    match p.2 with
    | [] => some (p.1, [])
    | c :: cs => if c.isWhitespace then some (p.1 ++ [c], cs) else none

/-- The trailing `(.+)$` (no DOTALL): at least one non-newline character,
reaching the end of the string or a final newline. -/
def nameMatch (rest : List Char) : Option (List Char) :=
  let core := if rest.getLast? = some '\n' then rest.dropLast else rest
  if core.isEmpty then none
  else if core.all (fun c => decide (c ≠ '\n')) then some core else none

/-- Backtracking of the `\s*` before the unit/name: give back trailing
whitespace characters one at a time. -/
def contBack (w v : List Char) : Option (List Char) :=
  (List.range w.length).findSome? fun k =>
    nameMatch (w.drop (w.length - 1 - k) ++ v)

/-- The continuation `\s*(unit)?(.+)$` after the quantity group: returns
`(group 6, group 7)`. -/
def contMatch (u : List Char) : Option (Option (List Char) × List Char) :=
  let w := u.takeWhile Char.isWhitespace
  let v := u.drop w.length
  match (unitCands v).filterMap (fun p => (nameMatch p.2).map fun nm => (some p.1, nm)) with
  | r :: _ => some r
  | [] =>
    match nameMatch v with
    | some nm => some (none, nm)
    | none => (contBack w v).map fun nm => ((none : Option (List Char)), nm)

/-- All quantity-group alternatives in `QUANTITY_PATTERN` order
(mixed fraction, simple fraction, range, plain number, absent). -/
def quantCands (t : List Char) : List (QuantParts × List Char) :=
  ((mixedCands t).map fun p => (QuantParts.mixed p.1.1 p.1.2, p.2))
    ++ ((fracCands t).map fun p => (QuantParts.frac p.1, p.2))
    ++ ((rangeCands t).map fun p => (QuantParts.range p.1.1 p.1.2, p.2))
    ++ ((numCands t).map fun p => (QuantParts.num p.1, p.2))
    ++ [(QuantParts.noQuant, t)]

/-- The pattern after the optional bullet. -/
def bodyMatch (t : List Char) : Option (QuantParts × Option (List Char) × List Char) :=
  (quantCands t).findSome? fun p =>
    (contMatch p.2).map fun r => (p.1, r.1, r.2)

/-- `QUANTITY_PATTERN.match`: the optional greedy bullet `(?:[-*]\s*)?`
(with `\s*` backtracking) followed by `bodyMatch`. -/
def quantityMatch (s : List Char) : Option (QuantParts × Option (List Char) × List Char) :=
  match s with
  | [] => none
  | c :: rest =>
    if c = '-' ∨ c = '*' then
      let w := rest.takeWhile Char.isWhitespace
      match (List.range (w.length + 1)).findSome?
          (fun k => bodyMatch (rest.drop (w.length - k))) with
      | some r => some r
      | none => bodyMatch s
    else bodyMatch s

/-- `UNIT_ALIASES` from `parser.py`. -/
def UNIT_ALIASES : List (String × String) :=
  [("tbsp", "tbsp"), ("tablespoon", "tbsp"), ("tablespoons", "tbsp"),
   ("tsp", "tsp"), ("teaspoon", "tsp"), ("teaspoons", "tsp"),
   ("cup", "cup"), ("cups", "cup"),
   ("oz", "oz"), ("fl oz", "fl oz"),
   ("lb", "lb"), ("lbs", "lb"), ("pound", "lb"), ("pounds", "lb"),
   ("g", "g"), ("kg", "kg"), ("ml", "ml"), ("l", "l"),
   ("liter", "l"), ("liters", "l"),
   ("clove", "clove"), ("cloves", "clove"),
   ("bunch", "bunch"), ("pinch", "pinch"),
   ("can", "can"), ("cans", "can"),
   ("package", "package"), ("pkg", "package")]

/-- `parse_quantity` from `parser.py`: quantity by matched alternative
(ranges take the second number, `float(groups[4])`), unit through the
alias table, name stripped of surrounding space and one trailing comma. -/
def parse_quantity (qp : QuantParts) (g6 : Option (List Char)) (g7 : List Char) :
    Option ℚ × Option String × String :=
  let quantity : Option ℚ :=
    match qp with
    | .mixed g0 g1 => some ((digitsToNat g0 : ℚ) + parse_fraction g1)
    | .frac g2 => some (parse_fraction g2)
    | .range _ g4 => some (pyFloat g4)
    | .num g5 => some (pyFloat g5)
    | .noQuant => none
  let unit : Option String :=
    match g6 with
    | some raw =>
      let ur := lowerStr (trimStr (String.mk raw))
      some ((List.lookup ur UNIT_ALIASES).getD ur)
    | none => none
  let name0 := trimChars g7
  (quantity, unit,
    String.mk (if name0.getLast? = some ',' then name0.dropLast else name0))

/-- Does `\s*to\s+taste` (IGNORECASE) match at the head of `s`? -/
def toTasteAt (s : List Char) : Bool :=
  match matchCI "to".data (s.dropWhile Char.isWhitespace) with
  | none => false
  | some r2 =>
    let w := r2.takeWhile Char.isWhitespace
    if w.isEmpty then false
    else (matchCI "taste".data (r2.drop w.length)).isSome

/-- `re.sub(r"\s*to\s+taste.*$", "", line)`: the text before the leftmost
match (the match always extends to the end of the line). -/
def cutToTaste : List Char → List Char
  | [] => []
  | c :: cs => if toTasteAt (c :: cs) then [] else c :: cutToTaste cs

/-- `re.sub(r"^[-*]\s*", "", …)`: strip one leading bullet and the
whitespace after it. -/
def stripBullet (l : List Char) : List Char :=
  match l with
  | c :: rest => if c = '-' ∨ c = '*' then rest.dropWhile Char.isWhitespace else l
  | [] => []

/-- Fallback branch of `parse_ingredient_line`: the whole line (bullet
stripped) as the ingredient name, discarded when empty. -/
def fallbackLine (t : String) : Option ParsedIngredient :=
  if trimStr (String.mk (stripBullet t.data)) ≠ "" then
    some ⟨none, none, trimStr (String.mk (stripBullet t.data)), t⟩
  else none

/-- Branch of `parse_ingredient_line` taken when `QUANTITY_PATTERN`
matched: keep the parsed triple if the name is non-empty, else fall back. -/
def matchedLine (t : String) (qp : QuantParts) (g6 : Option (List Char)) (g7 : List Char) :
    Option ParsedIngredient :=
  if (parse_quantity qp g6 g7).2.2 ≠ "" then
    some ⟨(parse_quantity qp g6 g7).1, (parse_quantity qp g6 g7).2.1,
      (parse_quantity qp g6 g7).2.2, t⟩
  else fallbackLine t

/-- `parse_ingredient_line` from `parser.py`. -/
def parse_ingredient_line (line : String) : Option ParsedIngredient :=
  let t := trimStr line
  if t.data.isEmpty then none
  else if t.data.head? = some '#' then none
  else if lSub "to taste".data (lowerStr t).data then
    some ⟨none, some "to taste", trimStr (String.mk (stripBullet (cutToTaste t.data))), t⟩
  else
    match quantityMatch t.data with
    | some (qp, g6, g7) => matchedLine t qp g6 g7
    | none => fallbackLine t

/-- Python `str.split("\n")`. -/
def splitNL : List Char → List (List Char)
  | [] => [[]]
  | c :: rest =>
    if c = '\n' then [] :: splitNL rest
    else
      match splitNL rest with
      | [] => [[c]]
      | h :: t => (c :: h) :: t

/-- The branch of `parse_recipe` taken once the ingredients section text
is found (the `if not ingredients:` test is the match on the collected
list). -/
def parse_recipe_sec (filename content : String) (sec : List Char) : ParsedRecipe :=
  match (splitNL sec).filterMap fun cs => parse_ingredient_line (String.mk cs) with
  | [] =>
    ⟨recipeName filename content, recipeServings content, [], content,
      some "No ingredients found in '## Ingredients' section"⟩
  | ing1 :: rest =>
    ⟨recipeName filename content, recipeServings content, ing1 :: rest, content, none⟩

/-- `parse_recipe` from `parser.py`. -/
def parse_recipe (filename content : String) : ParsedRecipe :=
  match findIngSectionChars content.data with
  | none =>
    ⟨recipeName filename content, recipeServings content, [], content,
      some "Missing '## Ingredients' section"⟩
  | some sec => parse_recipe_sec filename content sec

/-! ### Claims about `parse_recipe` and `parse_ingredient_line` -/

theorem parse_recipe_name_servings (filename content : String) :
    (parse_recipe filename content).name = recipeName filename content
      ∧ (parse_recipe filename content).servings = recipeServings content := by
  unfold parse_recipe
  cases hf : findIngSectionChars content.data with
  | none => exact ⟨rfl, rfl⟩
  | some sec =>
    show (parse_recipe_sec filename content sec).name = recipeName filename content
      ∧ (parse_recipe_sec filename content sec).servings = recipeServings content
    unfold parse_recipe_sec
    cases hi : (splitNL sec).filterMap fun cs => parse_ingredient_line (String.mk cs) with
    | nil => exact ⟨rfl, rfl⟩
    | cons ing1 rest => exact ⟨rfl, rfl⟩

/-- C5: the parse result carries an error exactly when its ingredient list
is empty; the error string is exactly "Missing '## Ingredients' section"
when no ingredients-section heading is found and exactly "No ingredients
found in '## Ingredients' section" when the section exists but no line
parses to an ingredient; in both cases the recoverable title and servings
are still returned. -/
theorem parse_recipe_error_iff (filename content : String) :
    ((parse_recipe filename content).error ≠ none
        ↔ (parse_recipe filename content).ingredients = [])
      ∧ (findIngSectionChars content.data = none
          → (parse_recipe filename content).error
              = some "Missing '## Ingredients' section")
      ∧ (∀ sec, findIngSectionChars content.data = some sec
          → ((splitNL sec).filterMap fun cs => parse_ingredient_line (String.mk cs)) = []
          → (parse_recipe filename content).error
              = some "No ingredients found in '## Ingredients' section")
      ∧ (parse_recipe filename content).name = recipeName filename content
      ∧ (parse_recipe filename content).servings = recipeServings content := by
  refine ⟨?_, ?_, ?_, (parse_recipe_name_servings filename content).1,
    (parse_recipe_name_servings filename content).2⟩
  · unfold parse_recipe
    cases hf : findIngSectionChars content.data with
    | none => exact ⟨fun _ => rfl, fun _ => by simp⟩
    | some sec =>
      show (parse_recipe_sec filename content sec).error ≠ none
        ↔ (parse_recipe_sec filename content sec).ingredients = []
      unfold parse_recipe_sec
      cases hi : (splitNL sec).filterMap fun cs => parse_ingredient_line (String.mk cs) with
      | nil => exact ⟨fun _ => rfl, fun _ => by simp⟩
      | cons ing1 rest =>
        exact ⟨fun h => absurd rfl h, fun h => by simp at h⟩
  · intro hf
    unfold parse_recipe
    rw [hf]
  · intro sec hf hnil
    unfold parse_recipe
    rw [hf]
    show (parse_recipe_sec filename content sec).error = _
    unfold parse_recipe_sec
    rw [hnil]

/-- Witness for C5 at concrete documents. -/
theorem parse_recipe_error_iff_witness :
    ((parse_recipe "f.md" "# T\nno section").error
        = some "Missing '## Ingredients' section")
      ∧ ((parse_recipe "f.md" "# T\n## Ingredients\n\n").error
          = some "No ingredients found in '## Ingredients' section")
      ∧ (parse_recipe "f.md" "# T\n## Ingredients\n\n").ingredients = [] :=
  ⟨(parse_recipe_error_iff "f.md" "# T\nno section").2.1 (by decide),
   (parse_recipe_error_iff "f.md" "# T\n## Ingredients\n\n").2.2.1 [] (by decide) (by decide),
   (parse_recipe_error_iff "f.md" "# T\n## Ingredients\n\n").1.mp (by decide)⟩

/-- C6 counterexample: a document declaring `Servings: 0` parses with
servings 0, so the servings value of a parse result is not always a
positive integer. -/
theorem parse_servings_zero :
    (parse_recipe "r.md" "Servings: 0\n## Ingredients\n- 1 egg\n").servings = 0 := by
  decide

/-- C6 (amended): the servings value is the non-negative integer captured
by the first multiline match of `Servings:` + optional whitespace + digits
(case-insensitive), and 4 when no such match exists; since `Servings: 0`
is a match, the value can be 0 and need not be positive. -/
theorem parse_recipe_servings (filename content : String) :
    (parse_recipe filename content).servings = (findServings content.data).getD 4
      ∧ (∀ n, findServings content.data = some n
          → (parse_recipe filename content).servings = n)
      ∧ (findServings content.data = none
          → (parse_recipe filename content).servings = 4) := by
  have h1 : (parse_recipe filename content).servings = (findServings content.data).getD 4 :=
    (parse_recipe_name_servings filename content).2
  refine ⟨h1, ?_, ?_⟩
  · intro n hn
    rw [h1, hn]
    rfl
  · intro hn
    rw [h1, hn]
    rfl

/-- Witness for C6 (amended) at concrete documents. -/
theorem parse_recipe_servings_witness :
    (parse_recipe "r.md" "Servings: 7\n## Ingredients\n- 1 egg\n").servings = 7
      ∧ (parse_recipe "r.md" "no servings line").servings = 4 :=
  ⟨(parse_recipe_servings "r.md" "Servings: 7\n## Ingredients\n- 1 egg\n").2.1 7 (by decide),
   (parse_recipe_servings "r.md" "no servings line").2.2 (by decide)⟩

/-- C7: when `parse_ingredient_line` matches the numeric-range alternative
`A-B` at the start of a line (after an optional bullet), the parsed
quantity is the value of the second captured number `B` — the upper bound
of the range as written — not `A` and not a midpoint. -/
theorem parse_range_takes_second (line : String) (a b : List Char)
    (g6 : Option (List Char)) (g7 : List Char)
    (hno : lSub "to taste".data (lowerStr (trimStr line)).data = false)
    (hh : (trimStr line).data.head? ≠ some '#')
    (hm : quantityMatch (trimStr line).data = some (QuantParts.range a b, g6, g7))
    (hname : (parse_quantity (QuantParts.range a b) g6 g7).2.2 ≠ "") :
    ∃ pi, parse_ingredient_line line = some pi ∧ pi.quantity = some (pyFloat b) := by
  have ht : ¬ ((trimStr line).data.isEmpty = true) := by
    intro he
    rw [List.isEmpty_iff.mp he] at hm
    exact absurd hm (by simp [quantityMatch])
  simp only [parse_ingredient_line]
  rw [if_neg ht, if_neg hh, if_neg (by simp [hno]), hm]
  show ∃ pi, matchedLine (trimStr line) (QuantParts.range a b) g6 g7 = some pi
    ∧ pi.quantity = some (pyFloat b)
  unfold matchedLine
  rw [if_pos hname]
  exact ⟨_, rfl, rfl⟩

/-- Witness for C7 at the line "2-3 onions". -/
theorem parse_range_takes_second_witness :
    ∃ pi, parse_ingredient_line "2-3 onions" = some pi
      ∧ pi.quantity = some (pyFloat ['3']) :=
  parse_range_takes_second "2-3 onions" ['2'] ['3'] none "onions".data
    (by decide) (by decide) (by decide) (by decide)

/-! ### `pantry.py` (pantry patterns, externally configured) -/

/-- `is_pantry_item` from `pantry.py` (patterns passed explicitly):
case-insensitive substring match against any configured pattern. -/
def is_pantry_item (patterns : List String) (ingredient_name : String) : Bool :=
  patterns.any fun pat => lSub pat.data (lowerStr ingredient_name).data

/-- The loop of `filter_pantry_items`: keep non-matching records for the
shopping list, collect matched names (their collection order is irrelevant
because the set is sorted afterwards). -/
def pantrySplit (patterns : List String) :
    List CombinedIng → List CombinedIng × List String
  | [] => ([], [])
  | ing :: rest =>
    if is_pantry_item patterns ing.name then
      ((pantrySplit patterns rest).1, ing.name :: (pantrySplit patterns rest).2)
    else (ing :: (pantrySplit patterns rest).1, (pantrySplit patterns rest).2)

/-- `filter_pantry_items` from `pantry.py`: the shopping records that
match no pantry pattern, plus the deduplicated, sorted matched names
(`sorted(set(...))`). -/
def filter_pantry_items (patterns : List String) (ingredients : List CombinedIng) :
    List CombinedIng × List String :=
  ((pantrySplit patterns ingredients).1,
    stableSort (fun a b => charsLt a.data b.data)
      (firstKeys (pantrySplit patterns ingredients).2))

/-- C10: the shopping half of `filter_pantry_items` consists of exactly
the input records whose names match no pantry pattern, each record
unchanged and in the same relative order as in the input — in particular
it is a sublist of the input. -/
theorem filter_pantry_shopping (patterns : List String) (ingredients : List CombinedIng) :
    (filter_pantry_items patterns ingredients).1
        = ingredients.filter (fun ing => !is_pantry_item patterns ing.name)
      ∧ ((filter_pantry_items patterns ingredients).1).Sublist ingredients := by
  have h : ∀ l : List CombinedIng,
      (pantrySplit patterns l).1
        = l.filter fun ing => !is_pantry_item patterns ing.name := by
    intro l
    induction l with
    | nil => rfl
    | cons ing rest ih =>
      cases hp : is_pantry_item patterns ing.name with
      | true => simp [pantrySplit, List.filter_cons, hp, ih]
      | false => simp [pantrySplit, List.filter_cons, hp, ih]
  refine ⟨h ingredients, ?_⟩
  rw [show (filter_pantry_items patterns ingredients).1
    = (pantrySplit patterns ingredients).1 from rfl, h ingredients]
  exact List.filter_sublist _
